import Mathlib

/-!
Shallow embedding of the emscripten build driver
(Engine/Extras/ThirdPartyNotUE/emsdk/emscripten), covering:

* `tools/system_libs.py` (1.38.31): the `calculate` function — the Library
  Dependency Resolver (symbol scan, forced/always include sets, the
  symbol-driven inclusion loop with recursive `add_library`, the two stable
  sorts of the final link line, and `--whole-archive` wrapping).
* `emcc.py` (1.37.19): `JSOptimizer.flush`, the precompiled-header branch,
  response-file expansion, the memory-initializer `repl` callback, the
  degenerate link step, and `ScriptSource` / `generate_html`.

External collaborators (subprocesses, the cache, file reads) are modelled by
parameters and event lists; machine state the code mutates is threaded
explicitly.  Python sets are modelled as lists with membership semantics.
-/

/-- Python `str.startswith`, computed on the character list (Lean's own
`String.startsWith` is not kernel-reducible). -/
def strStartsWith (s p : String) : Bool := p.data.isPrefixOf s.data

/-- Python `str.endswith`, computed on the character list. -/
def strEndsWith (s p : String) : Bool := p.data.reverse.isPrefixOf s.data.reverse

namespace SystemLibs

/-- `defs`/`undefs` of one scanned object file, as produced by
`Building.parallel_llvm_nm` (system_libs.py line 602).  Python sets are
modelled as lists; only membership is ever used. -/
structure Symbols where
  defs : List String
  undefs : List String
deriving Repr, DecidableEq

/-- The `Library` namedtuple of system_libs.py line 649:
`('shortname', 'suffix', 'create', 'symbols', 'deps', 'can_noexcept')`.
The `create` builder function is an external effect (it builds the archive)
and is represented by the build event emitted in `add_library`. -/
structure Library where
  shortname : String
  suffix : String
  symbols : List String
  deps : List String
  can_noexcept : Bool
deriving Repr, DecidableEq

/-- Subprocess activity of `calculate`: the `llvm-nm` symbol scan of the
compiled units (line 602) and a library build via `Cache.get(name, do_create)`
inside `add_library` (line 726). -/
inductive CalcEvent where
  | scanSymbols
  | buildLib (name : String)
deriving Repr, DecidableEq

/-- Fatal outcomes of `calculate`: `shared.exit_with_error` (line 704),
a failed Python `assert`, a `KeyError` on `system_libs_map[d]` (line 732),
and fuel exhaustion of the embedding (unreachable for the fuel used by
`calculate` below, and excluded by `.ok` hypotheses in the theorems). -/
inductive CalcErr where
  | configError (msg : String)
  | assertionError (msg : String)
  | keyError (name : String)
  | outOfFuel
deriving Repr, DecidableEq

/-- The mutable state of `calculate`'s selection phase:
`already_included` (line 686), `libs_to_link` (line 685), and the subprocess
events emitted so far. -/
structure CalcState where
  already_included : List String
  libs_to_link : List (String × Bool)
  events : List CalcEvent
deriving Repr, DecidableEq

/-- `system_libs_map[name]` (line 687).  The Python dict comprehension keeps
the last binding for a duplicated shortname; shortnames are unique in the
source list, so `find?` is equivalent. -/
def lookupLib (libs : List Library) (name : String) : Option Library :=
  libs.find? (fun l => l.shortname == name)

/-- `maybe_noexcept` (lines 706-709); `noexceptMode` is
`Settings.DISABLE_EXCEPTION_CATCHING`. -/
def maybe_noexcept (noexceptMode : Bool) (name : String) : String :=
  if noexceptMode then name ++ "_noexcept" else name

/-- The cache entry name `shortname + '.' + lib.suffix` computed in
`add_library` (lines 716-719).  `Cache.get` returns a path ending in this
name; the libfile is modelled by the name itself. -/
def libFileName (noexceptMode : Bool) (lib : Library) : String :=
  (if lib.can_noexcept then maybe_noexcept noexceptMode lib.shortname
   else lib.shortname) ++ "." ++ lib.suffix

/-- `need_syms` of the inclusion loop (lines 745-752): the library symbols
that some scanned unit leaves undefined. -/
def need_syms (symbolses : List Symbols) (lib : Library) : List String :=
  lib.symbols.filter (fun s => symbolses.any (fun y => y.undefs.contains s))

/-- `has_syms` (lines 746-754): the library symbols that some scanned unit
itself defines. -/
def has_syms (symbolses : List Symbols) (lib : Library) : List String :=
  lib.symbols.filter (fun s => symbolses.any (fun y => y.defs.contains s))

/-- The residual after `need_syms.remove(haz)` for every `haz` in `has_syms`
(lines 755-758); the module is included when this is non-empty (line 761). -/
def residual_syms (symbolses : List Symbols) (lib : Library) : List String :=
  (need_syms symbolses lib).filter
    (fun s => !((has_syms symbolses lib).contains s))

/-- The three-field state update of `add_library` (lines 714-728): record the
shortname, append `(libfile, need_whole_archive)` to the link list, and emit
the `Cache.get(name, do_create)` build. -/
def extendState (force_include : List String) (noexceptMode : Bool)
    (lib : Library) (st : CalcState) : CalcState :=
  let name := libFileName noexceptMode lib
  let need_whole_archive :=
    decide (lib.shortname ∈ force_include) && !(lib.suffix == "bc")
  { already_included := st.already_included ++ [lib.shortname]
    libs_to_link := st.libs_to_link ++ [(name, need_whole_archive)]
    events := st.events ++ [.buildLib name] }

/-- `add_library` (lines 711-732): skip if already included, else record the
library via `extendState` and run `for d in lib.deps:
add_library(system_libs_map[d])`; a dependency missing from the map raises
`KeyError`.  `fuel` bounds the recursion depth: the Python recursion is
bounded because the shortname is added to `already_included` before
recursing, so the fuel chosen in `calculate` below never runs out. -/
def add_library (libsMap : List Library) (force_include : List String)
    (noexceptMode : Bool) : Nat → Library → CalcState → Except CalcErr CalcState
  | 0, _, _ => .error .outOfFuel
  | fuel + 1, lib, st =>
    if lib.shortname ∈ st.already_included then .ok st
    else
      lib.deps.foldl
        (fun acc d =>
          match acc with
          | .error e => .error e
          | .ok s =>
            match lookupLib libsMap d with
            | none => .error (.keyError d)
            | some dl => add_library libsMap force_include noexceptMode fuel dl s)
        (.ok (extendState force_include noexceptMode lib st))

/-- The main selection loop `for lib in system_libs:` (lines 734-765):
assert the `lib` name convention, skip already-included modules, honour
`only_forced`, and include when forced, always-included, or the symbol
residual is non-empty. -/
def includeLoop (libsMap : List Library) (force_include always_include : List String)
    (only_forced noexceptMode : Bool) (symbolses : List Symbols) (fuel : Nat) :
    List Library → CalcState → Except CalcErr CalcState
  | [], st => .ok st
  | lib :: rest, st =>
    if !(strStartsWith lib.shortname "lib") then
      .error (.assertionError lib.shortname)
    else if lib.shortname ∈ st.already_included then
      includeLoop libsMap force_include always_include only_forced noexceptMode
        symbolses fuel rest st
    else
      let force_this := lib.shortname ∈ force_include
      if !(decide force_this) && only_forced then
        includeLoop libsMap force_include always_include only_forced noexceptMode
          symbolses fuel rest st
      else
        let include_this := force_this ∨ lib.shortname ∈ always_include
        if include_this ∨ residual_syms symbolses lib ≠ [] then
          match add_library libsMap force_include noexceptMode fuel lib st with
          | .error e => .error e
          | .ok st' =>
            includeLoop libsMap force_include always_include only_forced
              noexceptMode symbolses fuel rest st'
        else
          includeLoop libsMap force_include always_include only_forced
            noexceptMode symbolses fuel rest st

/-- One scan of `deps_info.items()` inside `add_back_deps` (lines 587-597):
an identifier that is undefined and not yet handled marks `more`, is added
to `added`, and pushes its dependencies into `undefs` (a Python set: adding
an existing element is a no-op) and, underscore-prefixed, onto
`EXPORTED_FUNCTIONS`.  Returns `(more, added, undefs, exported)`. -/
def add_back_deps_pass (deps_info : List (String × List String))
    (added undefs exported : List String) :
    Bool × List String × List String × List String :=
  deps_info.foldl
    (fun (acc : Bool × List String × List String × List String) entry =>
      let (more, added, undefs, exported) := acc
      if entry.1 ∈ undefs ∧ entry.1 ∉ added then
        let added := added ++ [entry.1]
        let p := entry.2.foldl
          (fun (uw : List String × List String) dep =>
            (if dep ∈ uw.1 then uw.1 else uw.1 ++ [dep],
             uw.2 ++ ["_" ++ dep])) (undefs, exported)
        (true, added, p.1, p.2)
      else (more, added, undefs, exported))
    (false, added, undefs, exported)

/-- `add_back_deps` (lines 587-599): rescan until no identifier is newly
added.  Each productive pass grows `added`, which is bounded by the number
of `deps_info` entries, so `deps_info.length + 1` fuel always reaches the
fixed point. -/
def add_back_deps (deps_info : List (String × List String)) :
    Nat → List String → List String → List String →
    List String × List String × List String
  | 0, added, undefs, exported => (added, undefs, exported)
  | fuel + 1, added, undefs, exported =>
    let r := add_back_deps_pass deps_info added undefs exported
    if r.1 then add_back_deps deps_info fuel r.2.1 r.2.2.1 r.2.2.2
    else (r.2.1, r.2.2.1, r.2.2.2)

/-- The loop `for symbols in symbolses: add_back_deps(symbols)` (lines
616-617): each unit's `undefs` set is augmented while `added` and
`EXPORTED_FUNCTIONS` are shared across the calls. -/
def applyBackDeps (deps_info : List (String × List String))
    (symbolses : List Symbols) (exported : List String) :
    List Symbols × List String :=
  let r := symbolses.foldl
    (fun (acc : List Symbols × List String × List String) y =>
      let t := add_back_deps deps_info (deps_info.length + 1)
        acc.2.1 y.undefs acc.2.2
      (acc.1 ++ [{ y with undefs := t.2.1 }], t.1, t.2.2))
    ([], [], exported)
  (r.1, r.2.2)

/-- Python's `list.sort` is stable, so sorting by a Bool-valued key moves the
key-true elements after the key-false ones while preserving the relative
order inside each group; that reordering is exactly this filter split. -/
def stableSortByFlag {α : Type} (key : α → Bool) (l : List α) : List α :=
  l.filter (fun x => !(key x)) ++ l.filter key

/-- Key of the first sort (line 771): `x[0].endswith('.a')`. -/
def archKey (x : String × Bool) : Bool := strEndsWith x.1 ".a"

/-- Key of the second sort (line 778): `x[0].endswith('libc++abi.bc')`. -/
def abiKey (x : String × Bool) : Bool := strEndsWith x.1 "libc++abi.bc"

/-- The two stable sorts of `libs_to_link` (lines 771-778): archives to the
end, then the `libc++abi.bc` entry last. -/
def sortLibs (libs : List (String × Bool)) : List (String × Bool) :=
  stableSortByFlag abiKey (stableSortByFlag archKey libs)

/-- The `--whole-archive` wrapping loop (lines 782-793), threading the
`in_group` flag and closing an open group at the end. -/
def wrapWholeArchive (libs : List (String × Bool)) : List String :=
  let p := libs.foldl
    (fun (acc : List String × Bool) x =>
      let acc := if x.2 && !acc.2 then (acc.1 ++ ["--whole-archive"], true)
                 else acc
      let acc := if acc.2 && !x.2 then (acc.1 ++ ["--no-whole-archive"], false)
                 else acc
      (acc.1 ++ [x.1], acc.2))
    ([], false)
  if p.2 then p.1 ++ ["--no-whole-archive"] else p.1

/-- `calculate` (lines 79, 566-795), from the `only_forced` handling to the
returned link line.  Externals become parameters: `system_libs` is the
registered library list built at lines 649-683 from the settings (its symbol
lists are read from `.symbols` files outside the repository), `scanned` is
the `parallel_llvm_nm` output for `temp_files`, `exported` is
`Settings.EXPORTED_FUNCTIONS`, and `deps_info` is the parsed
`deps_info.json`.  `envForceAll`/`envForce` model `EMCC_FORCE_STDLIBS`
(lines 692-695), `forced` is the function argument.  The returned event
list records the subprocess activity up to the point of abort, and the
result carries the final state plus the wrapped link line. -/
def calculate (system_libs : List Library) (always_include : List String)
    (forced : List String) (envForceAll : Bool) (envForce : List String)
    (only_forced noexceptMode wasmBackend : Bool)
    (temp_files : List String) (scanned : List Symbols)
    (exported : List String) (deps_info : List (String × List String)) :
    List CalcEvent × Except CalcErr (CalcState × List String) :=
  -- lines 574-576: only_forced empties the temp file list before the scan
  let temp_files := if only_forced then [] else temp_files
  -- line 602: the llvm-nm scan spawns subprocesses only for a non-empty list
  let scanEvents : List CalcEvent :=
    if temp_files.isEmpty then [] else [.scanSymbols]
  let symbolses := if temp_files.isEmpty then [] else scanned
  -- lines 604-608: a Dummy symbol object when nothing was scanned
  let symbolses := if symbolses.isEmpty then [⟨[], []⟩] else symbolses
  -- lines 611-614: every exported function, minus its leading underscore,
  -- becomes an undefined symbol of the first unit
  let symbolses : List Symbols :=
    match symbolses with
    | [] => []
    | y :: rest =>
      { y with undefs := y.undefs ++ exported.map (fun e => e.drop 1) } :: rest
  -- lines 616-617
  let symbolses := (applyBackDeps deps_info symbolses exported).1
  -- lines 692-695
  let force_include :=
    (if envForceAll then system_libs.map (·.shortname) else envForce) ++ forced
  -- lines 699-700: assert lib in system_libs_map
  match always_include.find? (fun a => (lookupLib system_libs a).isNone) with
  | some a => (scanEvents, .error (.assertionError a))
  | none =>
    -- lines 702-704: invalid forced library is a fatal error
    match force_include.find? (fun f => (lookupLib system_libs f).isNone) with
    | some f =>
      (scanEvents, .error (.configError ("invalid forced library: " ++ f)))
    | none =>
      match includeLoop system_libs force_include always_include only_forced
          noexceptMode symbolses (system_libs.length + 1) system_libs
          ⟨[], [], scanEvents⟩ with
      | .error e => (scanEvents, .error e)
      | .ok st =>
        -- lines 767-769: wasm backend appends two extra runtime archives
        let st :=
          if wasmBackend then
            { st with
              libs_to_link := st.libs_to_link ++
                [("libcompiler_rt_wasm.a", false), ("libc_rt_wasm.a", false)]
              events := st.events ++
                [.buildLib "libcompiler_rt_wasm.a", .buildLib "libc_rt_wasm.a"] }
          else st
        let sorted := sortLibs st.libs_to_link
        (st.events, .ok ({ st with libs_to_link := sorted },
                         wrapWholeArchive sorted))

/-- Folding the dependency step over a list cannot recover from an error. -/
theorem depsFold_error (libsMap : List Library) (force_include : List String)
    (noexceptMode : Bool) (fuel : Nat) (e : CalcErr) :
    ∀ ds : List String,
      ds.foldl
        (fun (acc : Except CalcErr CalcState) (d : String) =>
          match acc with
          | .error e => .error e
          | .ok s =>
            match lookupLib libsMap d with
            | none => .error (.keyError d)
            | some dl => add_library libsMap force_include noexceptMode fuel dl s)
        (.error e) = .error e := by
  intro ds
  induction ds with
  | nil => rfl
  | cons d rest ih => exact ih

/-- A state property preserved by every successful `add_library` at depth
`fuel` is preserved by the dependency fold at depth `fuel`. -/
theorem depsFold_pres (libsMap : List Library) (force_include : List String)
    (noexceptMode : Bool) (fuel : Nat) (P : CalcState → Prop)
    (hstep : ∀ lib st st',
      add_library libsMap force_include noexceptMode fuel lib st = .ok st' →
      P st → P st') :
    ∀ (ds : List String) (st st' : CalcState),
      ds.foldl
        (fun (acc : Except CalcErr CalcState) (d : String) =>
          match acc with
          | .error e => .error e
          | .ok s =>
            match lookupLib libsMap d with
            | none => .error (.keyError d)
            | some dl => add_library libsMap force_include noexceptMode fuel dl s)
        (.ok st) = .ok st' → P st → P st' := by
  intro ds
  induction ds with
  | nil => intro st st' h hP; cases h; exact hP
  | cons d rest ih =>
    intro st st' h hP
    simp only [List.foldl_cons] at h
    cases hl : lookupLib libsMap d with
    | none =>
      rw [hl] at h
      dsimp only at h
      rw [depsFold_error] at h
      cases h
    | some dl =>
      rw [hl] at h
      dsimp only at h
      cases ha : add_library libsMap force_include noexceptMode fuel dl st with
      | error e => rw [ha] at h; rw [depsFold_error] at h; cases h
      | ok st1 =>
        rw [ha] at h
        exact ih st1 st' h (hstep dl st st1 ha hP)

/-- A state property preserved by `extendState` (under the not-yet-included
guard) is preserved by every successful `add_library`. -/
theorem add_library_pres (libsMap : List Library) (force_include : List String)
    (noexceptMode : Bool) (P : CalcState → Prop)
    (hext : ∀ st lib, lib.shortname ∉ st.already_included → P st →
      P (extendState force_include noexceptMode lib st)) :
    ∀ (fuel : Nat) (lib : Library) (st st' : CalcState),
      add_library libsMap force_include noexceptMode fuel lib st = .ok st' →
      P st → P st' := by
  intro fuel
  induction fuel with
  | zero => intro lib st st' h _; cases h
  | succ n ih =>
    intro lib st st' h hP
    simp only [add_library] at h
    by_cases hmem : lib.shortname ∈ st.already_included
    · rw [if_pos hmem] at h; cases h; exact hP
    · rw [if_neg hmem] at h
      exact depsFold_pres libsMap force_include noexceptMode n P ih
        lib.deps _ st' h (hext st lib hmem hP)

theorem add_library_subset (libsMap : List Library) (force_include : List String)
    (noexceptMode : Bool) (fuel : Nat) (lib : Library) (st st' : CalcState)
    (h : add_library libsMap force_include noexceptMode fuel lib st = .ok st') :
    st.already_included ⊆ st'.already_included := by
  intro x hx
  exact add_library_pres libsMap force_include noexceptMode
    (fun s => x ∈ s.already_included)
    (fun st lib _ hP => by simp [extendState, List.mem_append, hP])
    fuel lib st st' h hx

/-- A successful `add_library` leaves the requested library included. -/
theorem add_library_mem (libsMap : List Library) (force_include : List String)
    (noexceptMode : Bool) (fuel : Nat) (lib : Library) (st st' : CalcState)
    (h : add_library libsMap force_include noexceptMode fuel lib st = .ok st') :
    lib.shortname ∈ st'.already_included := by
  cases fuel with
  | zero => cases h
  | succ n =>
    simp only [add_library] at h
    by_cases hmem : lib.shortname ∈ st.already_included
    · rw [if_pos hmem] at h; cases h; exact hmem
    · rw [if_neg hmem] at h
      exact depsFold_pres libsMap force_include noexceptMode n
        (fun s => lib.shortname ∈ s.already_included)
        (fun l st0 st1 h0 hP =>
          add_library_subset libsMap force_include noexceptMode n l st0 st1 h0 hP)
        lib.deps _ st' h (by simp [extendState, List.mem_append])

/-- A state property preserved by `add_library` is preserved by the whole
selection loop. -/
theorem includeLoop_pres (libsMap : List Library) (f a : List String)
    (of ne : Bool) (sy : List Symbols) (fuel : Nat) (P : CalcState → Prop)
    (hstep : ∀ lib st st',
      add_library libsMap f ne fuel lib st = .ok st' → P st → P st') :
    ∀ (libs : List Library) (st st' : CalcState),
      includeLoop libsMap f a of ne sy fuel libs st = .ok st' → P st → P st' := by
  intro libs
  induction libs with
  | nil => intro st st' h hP; cases h; exact hP
  | cons lib rest ih =>
    intro st st' h hP
    simp only [includeLoop] at h
    by_cases hlib : strStartsWith lib.shortname "lib"
    · rw [if_neg (by simp [hlib])] at h
      by_cases hmem : lib.shortname ∈ st.already_included
      · rw [if_pos hmem] at h; exact ih st st' h hP
      · rw [if_neg hmem] at h
        by_cases hskip : (!(decide (lib.shortname ∈ f)) && of) = true
        · rw [if_pos hskip] at h; exact ih st st' h hP
        · rw [if_neg hskip] at h
          by_cases hinc : (lib.shortname ∈ f ∨ lib.shortname ∈ a) ∨
              residual_syms sy lib ≠ []
          · rw [if_pos hinc] at h
            cases ha : add_library libsMap f ne fuel lib st with
            | error e => rw [ha] at h; cases h
            | ok st1 =>
              rw [ha] at h
              exact ih st1 st' h (hstep lib st st1 ha hP)
          · rw [if_neg hinc] at h; exact ih st st' h hP
    · rw [if_pos (by simp [hlib])] at h; cases h

theorem includeLoop_subset (libsMap : List Library) (f a : List String)
    (of ne : Bool) (sy : List Symbols) (fuel : Nat) (libs : List Library)
    (st st' : CalcState)
    (h : includeLoop libsMap f a of ne sy fuel libs st = .ok st') :
    st.already_included ⊆ st'.already_included := by
  intro x hx
  exact includeLoop_pres libsMap f a of ne sy fuel
    (fun s => x ∈ s.already_included)
    (fun lib st0 st1 h0 hP =>
      add_library_subset libsMap f ne fuel lib st0 st1 h0 hP)
    libs st st' h hx

/-- C1, counterexample.  With two registered libraries where `libx` (whose
symbol `f` is undefined in the compiled unit) declares a dependency on
`liby`, the resolver includes `liby` even though `liby`'s symbol residual is
empty and `liby` is neither forced nor in the always-include set: inclusion
is not equivalent to a non-empty residual, refuting the claimed
"if and only if". -/
theorem c1_counterexample :
    (calculate [⟨"libx", "bc", ["f"], ["liby"], false⟩,
                ⟨"liby", "bc", ["g"], [], false⟩]
        [] [] false [] false false false ["a.bc"] [⟨[], ["f"]⟩] [] []).2 =
      .ok (⟨["libx", "liby"],
            [("libx.bc", false), ("liby.bc", false)],
            [.scanSymbols, .buildLib "libx.bc", .buildLib "liby.bc"]⟩,
           ["libx.bc", "liby.bc"]) ∧
    residual_syms [⟨[], ["f"]⟩] ⟨"liby", "bc", ["g"], [], false⟩ = [] :=
  ⟨rfl, rfl⟩

/-- C1 (amended): outside forced-only mode, a registered library whose
symbol residual (needed symbols minus symbols defined by the compiled units
themselves) is non-empty is always included by the selection loop; the
converse does not hold, because a module is also included as a (transitive)
dependency of an included module, and a symbol satisfied by one included
module is still counted for every later module. -/
theorem c1_included_of_residual_nonempty
    (m : List Library) (f a : List String) (ne : Bool) (sy : List Symbols)
    (fuel : Nat) (libs : List Library) (st st' : CalcState) (lib : Library)
    (hmem : lib ∈ libs) (hres : residual_syms sy lib ≠ [])
    (h : includeLoop m f a false ne sy fuel libs st = .ok st') :
    lib.shortname ∈ st'.already_included := by
  induction libs generalizing st with
  | nil => cases hmem
  | cons l rest ih =>
    simp only [includeLoop] at h
    by_cases hlib : strStartsWith l.shortname "lib"
    · rw [if_neg (by simp [hlib])] at h
      rcases List.mem_cons.mp hmem with rfl | hmem'
      · by_cases hin : lib.shortname ∈ st.already_included
        · rw [if_pos hin] at h
          exact includeLoop_subset m f a false ne sy fuel rest st st' h hin
        · rw [if_neg hin] at h
          rw [if_neg (by simp)] at h
          by_cases hinc : (lib.shortname ∈ f ∨ lib.shortname ∈ a) ∨
              residual_syms sy lib ≠ []
          · rw [if_pos hinc] at h
            cases ha : add_library m f ne fuel lib st with
            | error e => rw [ha] at h; cases h
            | ok st1 =>
              rw [ha] at h
              exact includeLoop_subset m f a false ne sy fuel rest st1 st' h
                (add_library_mem m f ne fuel lib st st1 ha)
          · exact absurd (Or.inr hres) hinc
      · by_cases hin : l.shortname ∈ st.already_included
        · rw [if_pos hin] at h; exact ih st hmem' h
        · rw [if_neg hin] at h
          rw [if_neg (by simp)] at h
          by_cases hinc : (l.shortname ∈ f ∨ l.shortname ∈ a) ∨
              residual_syms sy l ≠ []
          · rw [if_pos hinc] at h
            cases ha : add_library m f ne fuel l st with
            | error e => rw [ha] at h; cases h
            | ok st1 => rw [ha] at h; exact ih st1 hmem' h
          · rw [if_neg hinc] at h; exact ih st hmem' h
    · rw [if_pos (by simp [hlib])] at h; cases h

/-- Witness for C1 (amended) at a concrete input. -/
theorem c1_included_of_residual_nonempty_witness :
    "libx" ∈ (⟨["libx"], [("libx.bc", false)],
      [CalcEvent.buildLib "libx.bc"]⟩ : CalcState).already_included :=
  c1_included_of_residual_nonempty
    [⟨"libx", "bc", ["f"], [], false⟩] [] [] false [⟨[], ["f"]⟩] 1
    [⟨"libx", "bc", ["f"], [], false⟩] ⟨[], [], []⟩
    ⟨["libx"], [("libx.bc", false)], [CalcEvent.buildLib "libx.bc"]⟩
    ⟨"libx", "bc", ["f"], [], false⟩
    (by simp) (by decide) rfl

/-- C3, counterexample.  Forcing the unregistered library `libzzz` with one
compiled unit present does abort with the fatal configuration error, but the
recorded subprocess activity shows the `llvm-nm` symbol scan (line 602) ran
before the check at lines 702-704: the abort does not happen before any
subprocess is spawned. -/
theorem c3_counterexample :
    calculate [⟨"libx", "bc", ["f"], [], false⟩] [] ["libzzz"] false []
        false false false ["a.bc"] [⟨[], ["f"]⟩] [] [] =
      ([.scanSymbols],
       .error (.configError "invalid forced library: libzzz")) :=
  rfl

/-- C3 (amended): a forced-include name that is not registered is a fatal
configuration error, raised before any library-build subprocess is spawned
(the symbol-scan subprocess may already have run). -/
theorem c3_config_error_before_any_build
    (system_libs : List Library) (always_include forced envForce : List String)
    (envForceAll only_forced noexceptMode wasmBackend : Bool)
    (temp_files : List String) (scanned : List Symbols)
    (exported : List String) (deps_info : List (String × List String))
    (f : String)
    (ha : ∀ x ∈ always_include, (lookupLib system_libs x).isSome = true)
    (hf : f ∈ forced) (hnone : lookupLib system_libs f = none) :
    (∃ msg,
      (calculate system_libs always_include forced envForceAll envForce
        only_forced noexceptMode wasmBackend temp_files scanned exported
        deps_info).2 = .error (.configError msg)) ∧
    ∀ e ∈ (calculate system_libs always_include forced envForceAll envForce
        only_forced noexceptMode wasmBackend temp_files scanned exported
        deps_info).1, e = CalcEvent.scanSymbols := by
  have h1 : always_include.find? (fun a => (lookupLib system_libs a).isNone)
      = none := by
    rw [List.find?_eq_none]
    intro x hx hcontra
    have hs := ha x hx
    rw [Option.isNone_iff_eq_none] at hcontra
    rw [hcontra] at hs
    cases hs
  have hf' : f ∈ ((if envForceAll then system_libs.map (·.shortname)
      else envForce) ++ forced) := List.mem_append_right _ hf
  have h2 : (((if envForceAll then system_libs.map (·.shortname)
      else envForce) ++ forced).find?
        (fun x => (lookupLib system_libs x).isNone)).isSome = true :=
    List.find?_isSome.mpr ⟨f, hf', by simp [hnone]⟩
  obtain ⟨g, hg⟩ := Option.isSome_iff_exists.mp h2
  have hcalc : calculate system_libs always_include forced envForceAll envForce
      only_forced noexceptMode wasmBackend temp_files scanned exported
      deps_info =
      ((if (if only_forced then [] else temp_files).isEmpty then []
        else [CalcEvent.scanSymbols]),
       .error (.configError ("invalid forced library: " ++ g))) := by
    simp only [calculate]
    rw [h1]
    dsimp only
    rw [hg]
  constructor
  · exact ⟨"invalid forced library: " ++ g, by rw [hcalc]⟩
  · intro e he
    rw [hcalc] at he
    by_cases hemp : (if only_forced then [] else temp_files).isEmpty
    · rw [if_pos hemp] at he; cases he
    · rw [if_neg hemp] at he
      simpa using he

/-- Witness for C3 (amended) at a concrete input. -/
theorem c3_config_error_before_any_build_witness :
    (∃ msg,
      (calculate [⟨"libx", "bc", ["f"], [], false⟩] [] ["libzzz"] false []
        false false false ["a.bc"] [⟨[], ["f"]⟩] [] []).2 =
        .error (.configError msg)) ∧
    ∀ e ∈ (calculate [⟨"libx", "bc", ["f"], [], false⟩] [] ["libzzz"] false []
        false false false ["a.bc"] [⟨[], ["f"]⟩] [] []).1,
      e = CalcEvent.scanSymbols :=
  c3_config_error_before_any_build
    [⟨"libx", "bc", ["f"], [], false⟩] [] ["libzzz"] [] false false false false
    ["a.bc"] [⟨[], ["f"]⟩] [] [] "libzzz"
    (by intro x hx; cases hx) (by simp) rfl

/-- C5, counterexample.  When the registered libraries are built as archives
(`WASM_OBJECT_FILES`, so `ext = 'a'` and the second sort key
`endswith('libc++abi.bc')` never fires), a build that pulls in libc++ and
its dependencies links `libc++abi.a` second of five entries — not last —
because the wasm-backend runtime archives are appended after it and no
reordering applies. -/
theorem c5_counterexample :
    (calculate [⟨"libc++", "a", ["sym1"], ["libc++abi"], true⟩,
                ⟨"libc++abi", "a", ["sym2"], ["libc"], false⟩,
                ⟨"libc", "a", ["sym3"], [], false⟩]
        [] [] false [] false false true ["a.bc"] [⟨[], ["sym1"]⟩] [] []).2 =
      .ok (⟨["libc++", "libc++abi", "libc"],
            [("libc++.a", false), ("libc++abi.a", false), ("libc.a", false),
             ("libcompiler_rt_wasm.a", false), ("libc_rt_wasm.a", false)],
            [.scanSymbols, .buildLib "libc++.a", .buildLib "libc++abi.a",
             .buildLib "libc.a", .buildLib "libcompiler_rt_wasm.a",
             .buildLib "libc_rt_wasm.a"]⟩,
           ["libc++.a", "libc++abi.a", "libc.a",
            "libcompiler_rt_wasm.a", "libc_rt_wasm.a"]) ∧
    sortLibs [("x.bc", false), ("libc++abi.bc", false), ("y.a", false)] =
      [("x.bc", false), ("y.a", false), ("libc++abi.bc", false)] :=
  ⟨rfl, rfl⟩

/-- C5 (amended): the two stable sorts order the link line as: entries not
ending in `libc++abi.bc` first (non-archives before `.a` archives), and the
entries ending in `libc++abi.bc` last (so only the bitcode-suffixed
libc++abi build gets the final slot; when libraries are built as `.a`
archives the libc++abi entry receives no special placement). -/
theorem c5_link_order (l : List (String × Bool)) :
    sortLibs l =
      l.filter (fun x => !(abiKey x) && !(archKey x)) ++
      l.filter (fun x => !(abiKey x) && archKey x) ++
      (l.filter (fun x => abiKey x && !(archKey x)) ++
       l.filter (fun x => abiKey x && archKey x)) := by
  simp only [sortLibs, stableSortByFlag, List.filter_append, List.filter_filter,
    List.append_assoc]

/-- C6, counterexample.  `liba` and `libb` declare each other as
dependencies — a cycle — yet the resolver neither loops nor reports a
configuration error: it terminates successfully, including each module
once. -/
theorem c6_counterexample :
    (calculate [⟨"liba", "bc", ["f"], ["libb"], false⟩,
                ⟨"libb", "bc", ["g"], ["liba"], false⟩]
        [] [] false [] false false false ["a.bc"] [⟨[], ["f"]⟩] [] []).2 =
      .ok (⟨["liba", "libb"],
            [("liba.bc", false), ("libb.bc", false)],
            [.scanSymbols, .buildLib "liba.bc", .buildLib "libb.bc"]⟩,
           ["liba.bc", "libb.bc"]) :=
  rfl

/-- `add_library` never records a module twice: the `already_included` guard
keeps the inclusion list duplicate-free. -/
theorem add_library_nodup (libsMap : List Library) (force_include : List String)
    (noexceptMode : Bool) (fuel : Nat) (lib : Library) (st st' : CalcState)
    (h : add_library libsMap force_include noexceptMode fuel lib st = .ok st')
    (hn : st.already_included.Nodup) : st'.already_included.Nodup :=
  add_library_pres libsMap force_include noexceptMode
    (fun s => s.already_included.Nodup)
    (fun _ _ hni hn0 =>
      List.Nodup.append hn0 (List.nodup_singleton _)
        (List.disjoint_singleton.mpr hni))
    fuel lib st st' h hn

/-- C6 (amended): the resolver terminates on every dependency graph,
including cyclic ones, without raising an error for the cycle: the
`already_included` guard makes each module processed at most once, so a
successful run includes every library exactly once rather than looping or
failing. -/
theorem c6_cycle_silent_termination
    (system_libs : List Library) (always_include forced envForce : List String)
    (envForceAll only_forced noexceptMode wasmBackend : Bool)
    (temp_files : List String) (scanned : List Symbols)
    (exported : List String) (deps_info : List (String × List String))
    (st : CalcState) (ret : List String)
    (h : (calculate system_libs always_include forced envForceAll envForce
      only_forced noexceptMode wasmBackend temp_files scanned exported
      deps_info).2 = .ok (st, ret)) :
    st.already_included.Nodup := by
  simp only [calculate] at h
  split at h
  · cases h
  · split at h
    · cases h
    · split at h
      · cases h
      · rename_i st0 hloop
        have hn : st0.already_included.Nodup := by
          refine includeLoop_pres _ _ _ _ _ _ _
            (fun s => s.already_included.Nodup) ?_ _ _ _ hloop List.nodup_nil
          intro lib s0 s1 h0 hn0
          exact add_library_nodup _ _ _ _ _ _ _ h0 hn0
        cases h
        by_cases hwb : wasmBackend
        · simpa [hwb] using hn
        · simpa [hwb] using hn

/-- Witness for C6 (amended) at the concrete cyclic input. -/
theorem c6_cycle_silent_termination_witness :
    (⟨["liba", "libb"],
      [("liba.bc", false), ("libb.bc", false)],
      [CalcEvent.scanSymbols, CalcEvent.buildLib "liba.bc",
       CalcEvent.buildLib "libb.bc"]⟩ : CalcState).already_included.Nodup :=
  c6_cycle_silent_termination
    [⟨"liba", "bc", ["f"], ["libb"], false⟩,
     ⟨"libb", "bc", ["g"], ["liba"], false⟩]
    [] [] [] false false false false ["a.bc"] [⟨[], ["f"]⟩] [] []
    ⟨["liba", "libb"],
     [("liba.bc", false), ("libb.bc", false)],
     [CalcEvent.scanSymbols, CalcEvent.buildLib "liba.bc",
      CalcEvent.buildLib "libb.bc"]⟩
    ["liba.bc", "libb.bc"] rfl

end SystemLibs

namespace JSOpt

/-- The `JSOptimizer` state relevant to `flush` (emcc.py 1.37.19, lines
170-234): the pass `queue`, the `extra_info` side-table (a Python dict, or
`None`; modelled as `Option` over an association list, `some []` being the
empty dict), the `queue_history` log, the `EMCC_JSOPT_BLACKLIST` list, and
`shared.Settings.ASM_JS`.  The target/option fields do not affect the
queue-state behaviour and are omitted. -/
structure JSOptimizer where
  queue : List String
  extra_info : Option (List (String × String))
  queue_history : List String
  blacklist : List String
  asmJS : Bool
deriving Repr, DecidableEq

/-- The chunking loop of `flush` (lines 203-218): adjacent passes with the
same `use_native` execution mode are batched; a mode switch closes the
current chunk with `emitJSON` and opens the next with `receiveJSON`.
`useNative` stands for `shared.js_optimizer.use_native(p, source_map=...)`. -/
def flushChunks (useNative : String → Bool) (passes : List String) :
    List (List String) :=
  let r := passes.foldl
    (fun (acc : List (List String) × List String) p =>
      if acc.2.isEmpty then (acc.1, [p])
      else if useNative p == useNative (acc.2.getLastD "") then
        (acc.1, acc.2 ++ [p])
      else
        (acc.1 ++ [acc.2 ++ ["emitJSON"]], ["receiveJSON", p]))
    ([], [])
  if r.2.isEmpty then r.1 else r.1 ++ [r.2]

/-- `JSOptimizer.flush` (lines 189-234) in normal mode (`DEBUG != '2'`):
first the queue is re-assigned to its blacklist-filtered form (line 190);
if the result is non-empty and is not a lone `'last'` pass while
`ASM_JS` is off (line 197), the chunked passes are executed via
`run_passes` (the external `js_optimizer` invocations, returned here as the
chunk list), the queue is logged to `queue_history` and cleared (lines
232-233); in every case `extra_info` ends reset to the empty dict
(line 234).  The transient `None`-ing of an empty `extra_info` (lines
194-195) only affects what the external optimizer receives and is
overwritten by line 234. -/
def flush (useNative : String → Bool) (st : JSOptimizer) :
    JSOptimizer × List (List String) :=
  let q := st.queue.filter (fun p => !(st.blacklist.contains p))
  if q ≠ [] ∧ ¬(st.asmJS = false ∧ q = ["last"]) then
    ({ st with queue := [], queue_history := st.queue_history ++ q,
               extra_info := some [] },
     flushChunks useNative q)
  else
    ({ st with queue := q, extra_info := some [] }, [])

/-- C2, counterexample.  With `ASM_JS` disabled and the queue holding
exactly the `'last'` pass, line 197 skips the execution body and never
clears the queue: after `flush` the queue still holds `'last'`, refuting
"after any call to flush, the queue is empty". -/
theorem c2_counterexample :
    (flush (fun _ => false) ⟨["last"], some [], [], [], false⟩).1.queue =
      ["last"] :=
  rfl

/-- C2 (amended): after any `flush` the extra-info side-table is reset to
the empty dict, and the queue is empty unless `ASM_JS` is off and the
blacklist-filtered queue was exactly `['last']`, which is left queued and
unexecuted; `flush` on an empty queue only resets the side-table and runs
no passes; and a second `flush` without intervening appends changes nothing
and runs no passes. -/
theorem c2_flush_state (useNative : String → Bool) (st : JSOptimizer) :
    (flush useNative st).1.extra_info = some [] ∧
    ((flush useNative st).1.queue = [] ∨
      (st.asmJS = false ∧ (flush useNative st).1.queue = ["last"])) ∧
    (flush useNative { st with queue := [] }).1 =
      { st with queue := [], extra_info := some [] } ∧
    (flush useNative { st with queue := [] }).2 = [] ∧
    flush useNative (flush useNative st).1 = ((flush useNative st).1, []) := by
  have hidem : ∀ l : List String,
      (l.filter (fun p => !(st.blacklist.contains p))).filter
        (fun p => !(st.blacklist.contains p)) =
      l.filter (fun p => !(st.blacklist.contains p)) := by
    intro l
    rw [List.filter_filter]
    simp [Bool.and_self]
  by_cases hcond : st.queue.filter (fun p => !(st.blacklist.contains p)) ≠ [] ∧
      ¬(st.asmJS = false ∧
        st.queue.filter (fun p => !(st.blacklist.contains p)) = ["last"])
  · refine ⟨?_, ?_, ?_, ?_, ?_⟩
    · simp only [flush, if_pos hcond]
    · simp only [flush, if_pos hcond]
      exact Or.inl trivial
    · simp [flush]
    · simp [flush]
    · simp only [flush, if_pos hcond]
      simp [flush]
  · refine ⟨?_, ?_, ?_, ?_, ?_⟩
    · simp only [flush, if_neg hcond]
    · simp only [flush, if_neg hcond]
      by_cases hq : st.queue.filter (fun p => !(st.blacklist.contains p)) = []
      · exact Or.inl hq
      · rcases Decidable.not_and_iff_or_not.mp hcond with h | h
        · exact absurd hq (by simpa using h)
        · exact Or.inr (by simpa using Decidable.not_not.mp h)
    · simp [flush]
    · simp [flush]
    · simp only [flush, if_neg hcond]
      rw [if_neg]
      · congr 1
        simp [hidem]
      · simpa [hidem] using hcond

end JSOpt

namespace Emcc

/-- The classification of one entry of `input_files` (emcc.py 1.37.19,
lines 697-754): source files set `has_source_inputs` (line 722), header
files set `has_header_inputs` (line 725), and assembly or LLVM-bitcode
files are recorded without setting either flag (lines 726-727); unknown
suffixes under a forced language mode are treated as source (lines
748-751).  Libraries go into `libs`, not `input_files`. -/
inductive InputKind where
  | source
  | header
  | bitcode
  | assembly
deriving Repr, DecidableEq

/-- Outcome of the precompiled-headers branch (lines 1225-1236). -/
inductive PCHOutcome where
  | notPCH
  | compiled (headers : List String)
  | conflict (offending : String)
deriving Repr, DecidableEq

/-- `HEADER_ENDINGS` (emcc.py line 51). -/
def HEADER_ENDINGS : List String :=
  [".h", ".hxx", ".hpp", ".hh", ".H", ".HXX", ".HPP", ".HH"]

/-- `header.endswith(HEADER_ENDINGS)` on the raw path (the tuple form of
Python's `str.endswith`: true when any listed suffix matches). -/
def pathIsHeader (p : String) : Bool :=
  HEADER_ENDINGS.any (fun e => strEndsWith p e)

/-- The precompiled-headers branch of `run` (lines 1225-1236): when any
header input is present (`has_header_inputs`, set by the classification),
ALL of `input_files` is taken as the header list; line 1229 then asserts
`header.endswith(HEADER_ENDINGS)` on each RAW path, raising on the first
failure.  This is not the same predicate as the classification: line 723
classifies via `filename_type_ending` (lines 573-583), which skips trailing
all-digit components, so a versioned name such as `a.h.1` is a classified
header whose raw path fails the assert.  On success all inputs are compiled
in one front-end invocation (`execute([call] + args)`, line 1235) and the
process exits immediately (`sys.exit(0)`, line 1236) — `.compiled` is a
terminal outcome with no further pipeline stages. -/
def pchStep (input_files : List (String × InputKind)) : PCHOutcome :=
  if input_files.any (fun i => i.2 == .header) then
    match input_files.find? (fun i => !(pathIsHeader i.1)) with
    | some off => .conflict off.1
    | none => .compiled (input_files.map (·.1))
  else .notPCH

/-- C4, counterexample.  Two inputs on which the claimed behaviour fails:
the single input `a.h.1` is exactly one header input and no source inputs
(`filename_type_ending` strips the trailing `.1`, classifying it a
header), yet the line-1229 raw-suffix assert rejects it instead of
compiling and terminating; and one header plus a bitcode object — still
exactly one header and no sources — likewise aborts on the bitcode input
rather than entering the claimed terminal compile. -/
theorem c4_counterexample :
    pchStep [("a.h.1", .header)] = .conflict "a.h.1" ∧
    (∀ hs, pchStep [("a.h.1", .header)] ≠ .compiled hs) ∧
    pchStep [("a.h", .header), ("b.bc", .bitcode)] = .conflict "b.bc" := by
  refine ⟨rfl, ?_, rfl⟩
  intro hs h
  cases h

/-- C4 (amended): whenever at least one classified header input is present,
the build enters the precompiled-header branch: if every input's raw path
ends in a header suffix, they are all compiled together in a single
front-end invocation and the process terminates immediately after; if any
input whose raw path lacks a header suffix accompanies a header (a source,
bitcode or assembly input, or a classified header carrying a trailing
version component), the branch aborts with an input-conflict assertion
instead. -/
theorem c4_pch_mode (input_files : List (String × InputKind))
    (hh : ∃ i ∈ input_files, i.2 = .header) :
    ((∀ i ∈ input_files, pathIsHeader i.1 = true) →
      pchStep input_files = .compiled (input_files.map (·.1))) ∧
    ((∃ i ∈ input_files, pathIsHeader i.1 = false) →
      ∃ off, pchStep input_files = .conflict off) := by
  obtain ⟨i, hi, hik⟩ := hh
  have hany : input_files.any (fun i => i.2 == .header) = true :=
    List.any_eq_true.mpr ⟨i, hi, by simp [hik]⟩
  constructor
  · intro hall
    have hfind : input_files.find? (fun i => !(pathIsHeader i.1)) = none := by
      rw [List.find?_eq_none]
      intro x hx
      simp [hall x hx]
    simp [pchStep, hany, hfind]
  · intro ⟨j, hj, hjk⟩
    have hfind : (input_files.find? (fun i => !(pathIsHeader i.1))).isSome :=
      List.find?_isSome.mpr ⟨j, hj, by simp [hjk]⟩
    obtain ⟨off, hoff⟩ := Option.isSome_iff_exists.mp hfind
    exact ⟨off.1, by simp [pchStep, hany, hoff]⟩

/-- Witness for C4 (amended) at a concrete input. -/
theorem c4_pch_mode_witness :
    ((∀ i ∈ [(("pre.h", InputKind.header) : String × InputKind)],
        pathIsHeader i.1 = true) →
      pchStep [("pre.h", .header)] = .compiled ["pre.h"]) ∧
    ((∃ i ∈ [(("pre.h", InputKind.header) : String × InputKind)],
        pathIsHeader i.1 = false) →
      ∃ off, pchStep [("pre.h", .header)] = .conflict off) :=
  c4_pch_mode [("pre.h", .header)] ⟨("pre.h", .header), by simp, rfl⟩

end Emcc

namespace Emcc

/-- The response files on disk, as a name-to-token-list map: the file's
contents after the `shlex.split` of `read_response_file`
(tools/response_file.py line 40). -/
def lookupFile (files : List (String × List String)) (name : String) :
    Option (List String) :=
  (files.find? (fun f => f.1 == name)).map (·.2)

/-- `read_response_file` (tools/response_file.py lines 29-45): strip the
leading `@` if present, fail if the file does not exist, else return its
token list. -/
def read_response_file (files : List (String × List String)) (token : String) :
    Except String (List String) :=
  let name := if strStartsWith token "@" then token.drop 1 else token
  match lookupFile files name with
  | none => .error ("Response file '" ++ name ++ "' not found!")
  | some args => .ok args

/-- The scan `for index in range(1, len(sys.argv))` of one iteration of the
expansion loop (emcc.py lines 312-313), applied to `sys.argv[1:]`: the
first token whose first character is `@`, together with the tokens before
and after it.  (Python reads `argv[index][0]`; argument tokens are never
empty.) -/
def findRespSplit : List String → Option (List String × String × List String)
  | [] => none
  | a :: as =>
    if strStartsWith a "@" then some ([], a, as)
    else
      match findRespSplit as with
      | some (p, t, s) => some (a :: p, t, s)
      | none => none

/-- The `while response_file:` expansion loop (emcc.py lines 308-319): find
the first `@`-token after `argv[0]`, splice the response file's token list
in its place (`sys.argv[index:index+1] = extra_args`, line 318), and rescan
from the start, so tokens produced by an expansion are expanded in turn.
A missing file raises (line 35 of response_file.py) before anything else is
parsed.  `fuel` bounds the rescans; a self-referential response file would
loop forever in Python and exhausts the fuel here. -/
def expandResponseFiles (files : List (String × List String)) :
    Nat → List String → Except String (List String)
  | 0, _ => .error "response file expansion did not terminate"
  | fuel + 1, argv =>
    match argv with
    | [] => .ok []
    | a0 :: rest =>
      match findRespSplit rest with
      | none => .ok (a0 :: rest)
      | some (pre, tok, post) =>
        match read_response_file files tok with
        | .error e => .error e
        | .ok extra => expandResponseFiles files fuel (a0 :: (pre ++ extra ++ post))

theorem findRespSplit_none (l : List String)
    (h : ∀ t ∈ l, strStartsWith t "@" = false) : findRespSplit l = none := by
  induction l with
  | nil => rfl
  | cons a as ih =>
    simp only [findRespSplit]
    rw [if_neg (by simp [h a (List.mem_cons_self a as)])]
    rw [ih (fun t ht => h t (List.mem_cons_of_mem a ht))]

theorem findRespSplit_first (pre : List String) (tok : String)
    (post : List String)
    (hpre : ∀ t ∈ pre, strStartsWith t "@" = false)
    (htok : strStartsWith tok "@" = true) :
    findRespSplit (pre ++ tok :: post) = some (pre, tok, post) := by
  induction pre with
  | nil => simp [findRespSplit, htok]
  | cons a as ih =>
    simp only [List.cons_append, findRespSplit]
    rw [if_neg (by simp [hpre a (List.mem_cons_self a as)])]
    simp only [List.append_eq]
    rw [ih (fun t ht => hpre t (List.mem_cons_of_mem a ht))]

/-- C7: every `@file` token after `argv[0]` is replaced in place by the
token list read from that file and the result is rescanned before any
further parsing (so nested `@file` tokens are expanded recursively, and a
response file yields the same argument vector as passing its tokens
directly); a missing response file fails with the fatal error; an argument
vector without `@` tokens is returned unchanged.  The final conjunct is the
spec's scenario: `@args.txt` holding `-O2 -o out.bin` expands exactly as if
those flags had been passed directly. -/
theorem c7_response_file_expansion
    (files : List (String × List String)) (fuel : Nat) (a0 tok : String)
    (pre post : List String)
    (hpre : ∀ t ∈ pre, strStartsWith t "@" = false)
    (htok : strStartsWith tok "@" = true) :
    (∀ ts, lookupFile files (tok.drop 1) = some ts →
      expandResponseFiles files (fuel + 1) (a0 :: (pre ++ tok :: post)) =
        expandResponseFiles files fuel (a0 :: (pre ++ ts ++ post))) ∧
    (lookupFile files (tok.drop 1) = none →
      expandResponseFiles files (fuel + 1) (a0 :: (pre ++ tok :: post)) =
        .error ("Response file '" ++ tok.drop 1 ++ "' not found!")) ∧
    (∀ (b0 : String) (rest : List String),
      (∀ t ∈ rest, strStartsWith t "@" = false) →
      expandResponseFiles files (fuel + 1) (b0 :: rest) = .ok (b0 :: rest)) ∧
    expandResponseFiles [("args.txt", ["-O2", "-o", "out.bin"])] 2
        ["emcc", "@args.txt", "a.c"] =
      .ok ["emcc", "-O2", "-o", "out.bin", "a.c"] := by
  have hsplit := findRespSplit_first pre tok post hpre htok
  refine ⟨?_, ?_, ?_, rfl⟩
  · intro ts hts
    simp only [expandResponseFiles, hsplit, read_response_file, htok, if_pos,
      hts]
  · intro hnone
    simp only [expandResponseFiles, hsplit, read_response_file, htok, if_pos,
      hnone]
  · intro b0 rest hrest
    simp only [expandResponseFiles, findRespSplit_none rest hrest]

/-- Witness for C7 at a concrete input. -/
theorem c7_response_file_expansion_witness :
    (∀ ts, lookupFile [("args.txt", ["-O2", "-o", "out.bin"])]
        ("@args.txt".drop 1) = some ts →
      expandResponseFiles [("args.txt", ["-O2", "-o", "out.bin"])] 2
          ("emcc" :: ([] ++ "@args.txt" :: ["a.c"])) =
        expandResponseFiles [("args.txt", ["-O2", "-o", "out.bin"])] 1
          ("emcc" :: ([] ++ ts ++ ["a.c"]))) ∧
    (lookupFile [("args.txt", ["-O2", "-o", "out.bin"])]
        ("@args.txt".drop 1) = none →
      expandResponseFiles [("args.txt", ["-O2", "-o", "out.bin"])] 2
          ("emcc" :: ([] ++ "@args.txt" :: ["a.c"])) =
        .error ("Response file '" ++ "@args.txt".drop 1 ++ "' not found!")) ∧
    (∀ (b0 : String) (rest : List String),
      (∀ t ∈ rest, strStartsWith t "@" = false) →
      expandResponseFiles [("args.txt", ["-O2", "-o", "out.bin"])] 2
          (b0 :: rest) = .ok (b0 :: rest)) ∧
    expandResponseFiles [("args.txt", ["-O2", "-o", "out.bin"])] 2
        ["emcc", "@args.txt", "a.c"] =
      .ok ["emcc", "-O2", "-o", "out.bin", "a.c"] :=
  c7_response_file_expansion [("args.txt", ["-O2", "-o", "out.bin"])] 1
    "emcc" "@args.txt" [] ["a.c"] (by intro t ht; cases ht) rfl

end Emcc

namespace Emcc

/-- Python `s.split(',')` on the character list (`String.splitOn` is not
kernel-reducible): empty pieces are kept, and the result is never empty. -/
def splitCharsOn (c : Char) : List Char → List (List Char)
  | [] => [[]]
  | x :: xs =>
    let r := splitCharsOn c xs
    if x == c then [] :: r
    else
      match r with
      | [] => [[x]]
      | h :: t => (x :: h) :: t

/-- `int(x or '0')` of the `repl` callback (emcc.py line 1606): an empty
piece is `0`; the memory-initializer regex group yields only digits and
commas, so a plain decimal fold matches Python's `int`. -/
def parseMemByte (x : String) : Nat :=
  if x.isEmpty then 0
  else x.data.foldl (fun acc c => acc * 10 + (c.toNat - 48)) 0

/-- The comma-split byte list of the matched group (line 1606). -/
def memBytesOf (s : String) : List Nat :=
  ((splitCharsOn ',' s.data).map String.mk).map parseMemByte

/-- `while membytes and membytes[-1] == 0: membytes.pop()` (lines
1607-1608): drop the trailing zeros. -/
def trimTrailingZeros (l : List Nat) : List Nat :=
  (l.reverse.dropWhile (fun b => b == 0)).reverse

/-- What the `repl` callback (lines 1602-1623) substitutes for the matched
memory-initializer statement.  The template strings live behind external
helpers (`JS.generate_string_initializer`, `os.path.basename`), so the
replacement is represented by which branch produced it and the byte
payload. -/
inductive MemInitRepl where
  | emptyRepl
  | inlineLiteral (bytes : List Nat)
  | fileRef (bytes : List Nat)
  | fileRefBinaryen (bytes : List Nat)
deriving Repr, DecidableEq

/-- The `repl` callback (lines 1602-1623): a zero-size group is dropped
(line 1605); the bytes are trimmed of trailing zeros and, if nothing
remains, the statement is dropped (line 1609) — before the
`memory_init_file` option is even consulted; without the option the
initializer is emitted as an inline string literal (lines 1610-1612);
otherwise `memfile` is written (line 1613) and referenced, with the wasm
(`BINARYEN`) variant of the reference at lines 1617-1623. -/
def repl (memory_init_file binaryen : Bool) (s : String) : MemInitRepl :=
  if s.isEmpty then .emptyRepl
  else
    let membytes := trimTrailingZeros (memBytesOf s)
    if membytes.isEmpty then .emptyRepl
    else if !memory_init_file then .inlineLiteral membytes
    else if !binaryen then .fileRef membytes
    else .fileRefBinaryen membytes

/-- The bytes written to `memfile`, if any: only the two file-referencing
branches of `repl` write the blob (line 1613). -/
def memfileWritten : MemInitRepl → Option (List Nat)
  | .fileRef b => some b
  | .fileRefBinaryen b => some b
  | _ => none

/-- The memory-initializer block (lines 1597-1634): nothing happens unless
`MEM_INIT_METHOD > 0`; the substitution runs with `count=1` (line 1624), so
`repl` — and hence the blob write — happens at most once per build, on the
first match if there is one. -/
def memInitPass (memInitMethodPos memory_init_file binaryen : Bool)
    (firstMatch : Option String) : Option MemInitRepl :=
  if memInitMethodPos then firstMatch.map (repl memory_init_file binaryen)
  else none

theorem head?_dropWhile_not {α : Type} (p : α → Bool) (l : List α) (a : α)
    (h : (l.dropWhile p).head? = some a) : p a = false := by
  induction l with
  | nil => cases h
  | cons x xs ih =>
    simp only [List.dropWhile_cons] at h
    by_cases hx : p x
    · rw [if_pos hx] at h; exact ih h
    · rw [if_neg hx] at h
      rw [List.head?_cons] at h
      injection h with h'
      subst h'
      simpa using hx

theorem trimTrailingZeros_getLast (l : List Nat) :
    (trimTrailingZeros l).getLast? ≠ some 0 := by
  unfold trimTrailingZeros
  rw [List.getLast?_reverse]
  intro h
  have := head?_dropWhile_not (fun b => b == 0) l.reverse 0 h
  simp at this

/-- C8, counterexample.  A matched initializer of `0,0` — entirely zero, so
empty after trailing-zero trimming — produces the empty replacement even
when the memory-init-file option is enabled: the blob is omitted (as
claimed) but the inline string-literal fallback is NOT used; the
initializer statement is dropped entirely (line 1609 returns `''` before
the option is consulted). -/
theorem c8_counterexample :
    repl true false "0,0" = .emptyRepl ∧
    memfileWritten (repl true false "0,0") = none ∧
    ∀ b, repl true false "0,0" ≠ .inlineLiteral b := by
  refine ⟨rfl, rfl, ?_⟩
  intro b h
  cases h

/-- C8 (amended): the blob is written only when `MEM_INIT_METHOD > 0`, the
memory-init-file option is on and the trimmed content is non-empty, and at
most once per build (`count=1`); trailing zeros are trimmed first, so a
written blob never ends in a zero byte and holds exactly the trimmed
bytes; if the content is entirely empty after trimming, the blob is
omitted and the initializer statement is dropped (empty replacement) — the
inline string-literal fallback is used only when the memory-init-file
option is off and trimmed content remains. -/
theorem c8_meminit_policy (mif bin : Bool) (s : String) :
    (memfileWritten (repl mif bin s) =
      if s.isEmpty ∨ trimTrailingZeros (memBytesOf s) = [] ∨ mif = false
      then none else some (trimTrailingZeros (memBytesOf s))) ∧
    (trimTrailingZeros (memBytesOf s) = [] → repl mif bin s = .emptyRepl) ∧
    (mif = false → ¬s.isEmpty → trimTrailingZeros (memBytesOf s) ≠ [] →
      repl mif bin s = .inlineLiteral (trimTrailingZeros (memBytesOf s))) ∧
    (∀ b, memfileWritten (repl mif bin s) = some b → b.getLast? ≠ some 0) ∧
    (∀ mm fm r, memInitPass mm mif bin fm = some r →
      mm = true ∧ ∃ g, fm = some g ∧ r = repl mif bin g) := by
  refine ⟨?_, ?_, ?_, ?_, ?_⟩
  · by_cases hs : s.isEmpty
    · simp [repl, memfileWritten, hs]
    · by_cases ht : trimTrailingZeros (memBytesOf s) = []
      · simp [repl, memfileWritten, hs, ht]
      · by_cases hm : mif
        · by_cases hb : bin <;>
            simp [repl, memfileWritten, hs, ht, hm, hb, List.isEmpty_iff]
        · simp [repl, memfileWritten, hs, ht, hm, List.isEmpty_iff]
  · intro ht
    by_cases hs : s.isEmpty
    · simp [repl, hs]
    · simp [repl, hs, ht, List.isEmpty_iff]
  · intro hm hs ht
    simp [repl, hs, ht, hm, List.isEmpty_iff]
  · intro b hb
    by_cases hs : s.isEmpty
    · simp [repl, memfileWritten, hs] at hb
    · by_cases ht : trimTrailingZeros (memBytesOf s) = []
      · simp [repl, memfileWritten, hs, ht, List.isEmpty_iff] at hb
      · by_cases hm : mif
        · by_cases hbin : bin <;>
            · simp [repl, memfileWritten, hs, ht, hm, hbin,
                List.isEmpty_iff] at hb
              subst hb
              exact trimTrailingZeros_getLast _
        · simp [repl, memfileWritten, hs, ht, hm, List.isEmpty_iff] at hb
  · intro mm fm r h
    by_cases hmm : mm
    · rw [memInitPass, if_pos (by simp [hmm])] at h
      cases fm with
      | none => cases h
      | some g =>
        refine ⟨hmm, g, rfl, ?_⟩
        simpa using h.symm
    · rw [memInitPass, if_neg (by simp [hmm])] at h
      cases h

/-- Witness for C8 (amended) at a concrete input. -/
theorem c8_meminit_policy_witness :
    (memfileWritten (repl true false "0,7,0") =
      if ("0,7,0" : String).isEmpty ∨
          trimTrailingZeros (memBytesOf "0,7,0") = [] ∨ true = false
      then none else some (trimTrailingZeros (memBytesOf "0,7,0"))) ∧
    (trimTrailingZeros (memBytesOf "0,7,0") = [] →
      repl true false "0,7,0" = .emptyRepl) ∧
    (true = false → ¬("0,7,0" : String).isEmpty →
      trimTrailingZeros (memBytesOf "0,7,0") ≠ [] →
      repl true false "0,7,0" =
        .inlineLiteral (trimTrailingZeros (memBytesOf "0,7,0"))) ∧
    (∀ b, memfileWritten (repl true false "0,7,0") = some b →
      b.getLast? ≠ some 0) ∧
    (∀ mm fm r, memInitPass mm true false fm = some r →
      mm = true ∧ ∃ g, fm = some g ∧ r = repl true false g) :=
  c8_meminit_policy true false "0,7,0"

end Emcc

namespace Emcc

/-- One compiled unit's temporary object, as the link step sees it
(emcc.py lines 1406-1431): its path, its `suffix()` (computed by the
external `tools.shared.suffix` helper), the `Building.is_ar` content sniff,
and the file's bytes. -/
structure TempFile where
  path : String
  ext : String
  isAr : Bool
  content : String
deriving Repr, DecidableEq

/-- `BITCODE_ENDINGS` (emcc.py line 47). -/
def BITCODE_ENDINGS : List String := [".bc", ".o", ".obj", ".lo"]

/-- `DYNAMICLIB_ENDINGS` (emcc.py line 48). -/
def DYNAMICLIB_ENDINGS : List String := [".dylib", ".so"]

/-- What the link block does: invoke `Building.link` on the collected
inputs, or produce the linked module by `shutil.move` / `shutil.copyfile`
of a single file (lines 1418, 1425, 1427, 1431). -/
inductive LinkAction where
  | linked (inputs : List String)
  | movedTemp (src : String)
  | copiedTemp (src : String)
  | copiedRaw (src : String)
deriving Repr, DecidableEq

/-- The link step (lines 1406-1431): a real link happens when there is more
than one input counting `extra_files_to_link`, or the single temp file is a
recognized archive that is not bitcode or a dynamic library (a singleton
`.a` must still be linked); otherwise the single unit's object is moved (or
copied, when the temp file IS the input file) to the output location, and
under `LEAVE_INPUTS_RAW` the raw input file is copied.  `none` models the
`IndexError` Python would raise on an empty list. -/
def linkStep (leaveRaw : Bool) (input_files : List String)
    (temp_files : List TempFile) (extra_files_to_link : List String)
    (linker_inputs : List String) : Option LinkAction :=
  if input_files.length + extra_files_to_link.length > 1 then
    some (.linked (linker_inputs ++ extra_files_to_link))
  else if !leaveRaw then
    match temp_files.head?, input_files.head? with
    | some t0, some i0 =>
      if ¬(t0.ext ∈ BITCODE_ENDINGS ∨ t0.ext ∈ DYNAMICLIB_ENDINGS) ∧ t0.isAr
      then some (.linked (linker_inputs ++ extra_files_to_link))
      else if t0.path ≠ i0 then some (.movedTemp t0.path)
      else some (.copiedTemp t0.path)
    | _, _ => none
  else
    match input_files.head? with
    | some i0 => some (.copiedRaw i0)
    | none => none

/-- Modelled from the spec: the Linker/Optimizer contract of §4.5 —
"concatenate all CompiledUnit IR objects plus resolved LibraryModule
outputs into one linked IR module".  The real linker (`Building.link` in
`tools/shared.py`) is outside this repository's sources, so full linking is
modelled as this concatenation, under which the linked module of a single
unit with no libraries is that unit's content (module framing aside). -/
def specLinkedModule (units libs : List String) : String :=
  String.join (units ++ libs)

/-- C9: with exactly one compiled unit whose object is bitcode or a dynamic
library (or at least not an archive) and no extra files to link, the link
step performs no linker invocation: it moves the object to the output
location (or copies it when the temp file is the input itself), and the
resulting content equals the spec-level link of the single unit with no
libraries. -/
theorem c9_single_unit_link_degenerates (i0 : String) (t0 : TempFile)
    (linker_inputs : List String)
    (hobj : t0.ext ∈ BITCODE_ENDINGS ∨ t0.ext ∈ DYNAMICLIB_ENDINGS ∨
      t0.isAr = false) :
    linkStep false [i0] [t0] [] linker_inputs =
      some (if t0.path ≠ i0 then .movedTemp t0.path else .copiedTemp t0.path) ∧
    (∀ inputs, linkStep false [i0] [t0] [] linker_inputs ≠
      some (.linked inputs)) ∧
    specLinkedModule [t0.content] [] = t0.content := by
  have hcond : ¬(¬(t0.ext ∈ BITCODE_ENDINGS ∨ t0.ext ∈ DYNAMICLIB_ENDINGS) ∧
      t0.isAr = true) := by
    rcases hobj with h | h | h
    · exact fun hc => hc.1 (Or.inl h)
    · exact fun hc => hc.1 (Or.inr h)
    · exact fun hc => by rw [h] at hc; exact Bool.false_ne_true hc.2
  have hstep : linkStep false [i0] [t0] [] linker_inputs =
      some (if t0.path ≠ i0 then .movedTemp t0.path
            else .copiedTemp t0.path) := by
    simp only [linkStep, List.length_cons, List.length_nil, List.head?_cons]
    rw [if_neg (by simp)]
    rw [if_pos (by simp)]
    rw [if_neg hcond]
    split <;> rfl
  refine ⟨hstep, ?_, ?_⟩
  · intro inputs hli
    rw [hstep] at hli
    injection hli with hli
    by_cases hpath : t0.path ≠ i0
    · rw [if_pos hpath] at hli; cases hli
    · rw [if_neg hpath] at hli; cases hli
  · simp [specLinkedModule, String.join]

/-- Witness for C9 at a concrete input. -/
theorem c9_single_unit_link_degenerates_witness :
    linkStep false ["a.c"] [⟨"/tmp/a.o", ".o", false, "UNIT-IR"⟩] [] [] =
      some (if (⟨"/tmp/a.o", ".o", false, "UNIT-IR"⟩ : TempFile).path ≠ "a.c"
            then .movedTemp (⟨"/tmp/a.o", ".o", false, "UNIT-IR"⟩ :
              TempFile).path
            else .copiedTemp (⟨"/tmp/a.o", ".o", false, "UNIT-IR"⟩ :
              TempFile).path) ∧
    (∀ inputs, linkStep false ["a.c"] [⟨"/tmp/a.o", ".o", false, "UNIT-IR"⟩]
      [] [] ≠ some (.linked inputs)) ∧
    specLinkedModule [(⟨"/tmp/a.o", ".o", false, "UNIT-IR"⟩ :
      TempFile).content] [] =
      (⟨"/tmp/a.o", ".o", false, "UNIT-IR"⟩ : TempFile).content :=
  c9_single_unit_link_degenerates "a.c" ⟨"/tmp/a.o", ".o", false, "UNIT-IR"⟩
    [] (Or.inl (by simp [BITCODE_ENDINGS]))

end Emcc

namespace Html

/-- The inline script contents built by `generate_html` (emcc.py lines
2364-2474).  Each constructor stands for one of the literal `'''...'''`
templates with its `%s` holes filled — the wrapping steps only ever nest
the previous inline text inside a new template. -/
inductive InlineJS where
  | worker
  | loader (src : String)
  | emterpreterWrap (file : String) (inner : InlineJS)
  | meminitWrap (memfile : String) (inner : InlineJS)
  | asmWrap (asm : String) (inner : InlineJS)
  | asmModsWrap (asm : String) (mods : List String) (inner : InlineJS)
  | wasmWrap (wasm : String) (inner : InlineJS)
  | missing
deriving Repr, DecidableEq

/-- `ScriptSource` (lines 2530-2533): `src` — a script to load via a `src`
attribute — or `inline` — the contents of an inline script. -/
structure ScriptSource where
  src : Option String
  inline : Option InlineJS
deriving Repr, DecidableEq

/-- `ScriptSource.un_src` (lines 2535-2544): a no-op when there is no `src`;
otherwise replace the `src` reference by the equivalent inline loader
script (the `document.createElement('script')` template referencing the
same target) and clear `src`. -/
def un_src (s : ScriptSource) : ScriptSource :=
  match s.src with
  | none => s
  | some v => { src := none, inline := some (.loader v) }

/-- The final script tag (lines 2546-2552), or the failure of the assert at
line 2548; `asmModsAssert` is the assert at line 2423. -/
inductive HtmlErr where
  | asmModsAssert
  | scriptAssert
deriving Repr, DecidableEq

inductive ScriptTag where
  | srcTag (src : String)
  | inlineTag (code : InlineJS)
deriving Repr, DecidableEq

/-- `ScriptSource.replacement` (lines 2546-2552): asserts that exactly one
of the two fields is set, then emits the corresponding tag.  (The Python
assert uses truthiness; every inline string the flow builds is non-empty.) -/
def replacement (s : ScriptSource) : Except HtmlErr ScriptTag :=
  match s.src, s.inline with
  | some v, none => .ok (.srcTag v)
  | none, some i => .ok (.inlineTag i)
  | _, _ => .error .scriptAssert

/-- One wrapping step of `generate_html`: `script.un_src()` followed by
`script.inline = template % (..., script.inline)` (the emterpreter block at
lines 2388-2400, the memory-init block at 2402-2418, the separate-asm block
at 2425-2460 and the synchronous-wasm block at 2462-2474 all have this
shape).  Were `inline` still unset, Python would interpolate the text
`None`; `.missing` stands for that (the flow below never produces it). -/
def wrapInline (f : InlineJS → InlineJS) (s : ScriptSource) : ScriptSource :=
  let s := un_src s
  { s with inline := some (f (s.inline.getD .missing)) }

/-- The script-building flow of `generate_html` (lines 2352-2477): start
with an empty `ScriptSource` (line 2355); either install the
proxy-to-worker inline script, with `asm_mods` empty (lines 2364-2378), or
point `src` at the main JS and compute `asm_mods` via `client_mods`
(lines 2379-2386, the mods list being a parameter here); then apply the
emterpreter-file, memory-init-file, separate-asm and synchronous-wasm
wrapping steps as the settings demand, where the no-separate-asm path
asserts `asm_mods` is empty (line 2423); finally produce the script tag via
`replacement()` (line 2477). -/
def generate_html_script (proxyToWorker : Bool) (baseJsTarget : String)
    (emterpretifyFile : Option String) (memoryInitFile : Bool)
    (memfile : String) (separateAsm binaryen asmjsInMethod : Bool)
    (asyncCompilation : Bool) (asmMods : List String)
    (asmTarget wasmBinaryTarget : String) : Except HtmlErr ScriptTag :=
  let script : ScriptSource := ⟨none, none⟩
  let asm_mods := if proxyToWorker then [] else asmMods
  let script :=
    if proxyToWorker then { script with inline := some .worker }
    else { script with src := some baseJsTarget }
  let script :=
    match emterpretifyFile with
    | some f => wrapInline (.emterpreterWrap f) script
    | none => script
  let script :=
    if memoryInitFile then wrapInline (.meminitWrap memfile) script else script
  match
    (if ¬separateAsm ∨ (binaryen ∧ ¬asmjsInMethod) then
      if asm_mods ≠ [] then none else some script
    else
      some (if asm_mods = [] then wrapInline (.asmWrap asmTarget) script
            else wrapInline (.asmModsWrap asmTarget asm_mods) script))
  with
  | none => .error .asmModsAssert
  | some script =>
    let script :=
      if binaryen ∧ ¬asyncCompilation then
        wrapInline (.wasmWrap wasmBinaryTarget) script
      else script
    replacement script

/-- Exactly one of the two `ScriptSource` fields is set. -/
def exactlyOne (s : ScriptSource) : Prop :=
  (s.src = none ∧ s.inline.isSome) ∨ (s.src.isSome ∧ s.inline = none)

theorem exactlyOne_wrapInline (f : InlineJS → InlineJS) (s : ScriptSource) :
    exactlyOne (wrapInline f s) := by
  cases h : s.src <;> simp [wrapInline, un_src, h, exactlyOne]

theorem replacement_ok_of_exactlyOne (s : ScriptSource) (h : exactlyOne s) :
    replacement s ≠ .error .scriptAssert := by
  rcases h with ⟨h1, h2⟩ | ⟨h1, h2⟩
  · obtain ⟨i, hi⟩ := Option.isSome_iff_exists.mp h2
    simp [replacement, h1, hi]
  · obtain ⟨v, hv⟩ := Option.isSome_iff_exists.mp h1
    simp [replacement, hv, h2]

/-- C10: throughout `generate_html`, the script source keeps the invariant
that exactly one of `src`/`inline` is set when the final tag is produced:
`un_src` is a no-op when `src` is unset and otherwise converts the `src`
reference into the equivalent inline loader; every wrapping step
(emterpreter file, memory-init file, separate asm, synchronous wasm)
re-establishes the invariant; hence the `replacement()` assert never fires,
for every combination of settings. -/
theorem c10_script_source_invariant :
    (∀ i : Option InlineJS, un_src ⟨none, i⟩ = ⟨none, i⟩) ∧
    (∀ (v : String) (i : Option InlineJS),
      un_src ⟨some v, i⟩ = ⟨none, some (.loader v)⟩) ∧
    (∀ (f : InlineJS → InlineJS) (s : ScriptSource),
      exactlyOne (wrapInline f s)) ∧
    ∀ (proxyToWorker : Bool) (baseJsTarget : String)
      (emterpretifyFile : Option String) (memoryInitFile : Bool)
      (memfile : String) (separateAsm binaryen asmjsInMethod : Bool)
      (asyncCompilation : Bool) (asmMods : List String)
      (asmTarget wasmBinaryTarget : String),
      generate_html_script proxyToWorker baseJsTarget emterpretifyFile
        memoryInitFile memfile separateAsm binaryen asmjsInMethod
        asyncCompilation asmMods asmTarget wasmBinaryTarget ≠
        .error .scriptAssert := by
  refine ⟨fun i => rfl, fun v i => rfl, exactlyOne_wrapInline, ?_⟩
  intro proxyToWorker baseJsTarget emterpretifyFile memoryInitFile memfile
    separateAsm binaryen asmjsInMethod asyncCompilation asmMods asmTarget
    wasmBinaryTarget
  simp only [generate_html_script]
  have hbase : exactlyOne
      (if proxyToWorker then
        ({ src := none, inline := some InlineJS.worker } : ScriptSource)
       else { src := some baseJsTarget, inline := none }) := by
    by_cases hp : proxyToWorker <;> simp [hp, exactlyOne]
  generalize (if proxyToWorker then
      ({ src := none, inline := some InlineJS.worker } : ScriptSource)
    else { src := some baseJsTarget, inline := none }) = s0 at hbase ⊢
  have h1 : exactlyOne (match emterpretifyFile with
      | some f => wrapInline (.emterpreterWrap f) s0
      | none => s0) := by
    cases emterpretifyFile with
    | none => exact hbase
    | some f => exact exactlyOne_wrapInline _ _
  generalize (match emterpretifyFile with
      | some f => wrapInline (.emterpreterWrap f) s0
      | none => s0) = s1 at h1 ⊢
  have h2 : exactlyOne (if memoryInitFile then
      wrapInline (.meminitWrap memfile) s1 else s1) := by
    by_cases hm : memoryInitFile
    · simpa [hm] using exactlyOne_wrapInline (.meminitWrap memfile) s1
    · simpa [hm] using h1
  generalize (if memoryInitFile then wrapInline (.meminitWrap memfile) s1
      else s1) = s2 at h2 ⊢
  split
  · intro h; cases h
  · rename_i script hsc
    have hex : exactlyOne script := by
      by_cases hcond : ¬separateAsm ∨ (binaryen ∧ ¬asmjsInMethod)
      · rw [if_pos hcond] at hsc
        by_cases hmods : (if proxyToWorker then [] else asmMods) ≠ []
        · rw [if_pos hmods] at hsc; cases hsc
        · rw [if_neg hmods] at hsc
          injection hsc with hsc
          rw [← hsc]
          exact h2
      · rw [if_neg hcond] at hsc
        injection hsc with hsc
        rw [← hsc]
        by_cases hmods : (if proxyToWorker then [] else asmMods) = [] <;>
          simp [hmods, exactlyOne_wrapInline]
    by_cases hw : binaryen ∧ ¬asyncCompilation
    · rw [if_pos hw]
      exact replacement_ok_of_exactlyOne _ (exactlyOne_wrapInline _ _)
    · rw [if_neg hw]
      exact replacement_ok_of_exactlyOne _ hex

end Html
